import Mathlib

/-!
Verification of the SolanaAIO repository (two programs: the sweep program
`SolanaCollector/main.js` and the scan program `BalanceTxFilter/index.js`)
against its natural-language specification.

The JavaScript source is shallowly embedded: promises become explicit
outcome values (`Except`/custom outcome inductives), the event loop's
nondeterministic resolution order becomes an adversarial schedule oracle,
machine numbers become `Nat`/`Int`/`Rat` (JS `number` arithmetic on the
values involved is exact, so `Rat` is the faithful carrier), and remote
RPC behaviour becomes an oracle record supplied to each workflow.
-/

set_option maxHeartbeats 1000000

namespace SolanaAIO

/-- Outcome of one invocation of the wrapped zero-argument async operation
passed to `withRetry` in `BalanceTxFilter/index.js`: success, a failure whose
error message contains the substring 429 (the rate-limit classification the
source tests with `error.message.includes` applied to the 429 marker), or any
other failure. -/
inductive CallOutcome (α : Type) where
  | ok (v : α)
  | rateLimited
  | failed (msg : String)
  deriving DecidableEq, Repr

/-- Result of a whole `withRetry` run: the success value, the
`Maximum retry attempts reached` rejection after exhausting attempts, or an
immediately propagated non-rate-limited failure. -/
inductive RetryOutcome (α : Type) where
  | ok (v : α)
  | exhausted
  | failed (msg : String)
  deriving DecidableEq, Repr

/-- Loop body of `withRetry` from `BalanceTxFilter/index.js`.  The JS loop
runs `while (attempt < retries)`; here `fuel = retries - attempt` so the
recursion is structural, and `attempt` indexes the successive invocations of
the operation.  Returns the outcome, the number of invocations of the
operation performed, and the list of waits (`currentDelay` doubles after each
rate-limited failure). -/
def withRetryGo {α : Type} (fn : Nat → CallOutcome α) :
    Nat → Nat → Nat → RetryOutcome α × Nat × List Nat
  | 0, _, _ => (.exhausted, 0, [])
  | fuel + 1, attempt, currentDelay =>
    match fn attempt with
    | .ok v => (.ok v, 1, [])
    | .rateLimited =>
      let r := withRetryGo fn fuel (attempt + 1) (currentDelay * 2)
      (r.1, r.2.1 + 1, currentDelay :: r.2.2)
    | .failed e => (.failed e, 1, [])

/-- `withRetry(fn, retries = 5, initialDelay = 500)` from
`BalanceTxFilter/index.js`, with the operation's per-invocation behaviour
given by `fn`. -/
def withRetry {α : Type} (fn : Nat → CallOutcome α) (retries initialDelay : Nat) :
    RetryOutcome α × Nat × List Nat :=
  withRetryGo fn retries 0 initialDelay

/-- An operation that fails with a rate-limit-classified error on its first
`k` invocations and then succeeds with `v`. -/
def rateLimitedThen {α : Type} (k : Nat) (v : α) : Nat → CallOutcome α :=
  fun n => if n < k then .rateLimited else .ok v

/-- The exponential backoff wait sequence `d, 2·d, 4·d, …` of length `k`. -/
def backoffDelays : Nat → Nat → List Nat
  | _, 0 => []
  | d, k + 1 => d :: backoffDelays (d * 2) k

/-- The remote-procedure methods invoked by the two programs. -/
inductive RpcMethod where
  | getBalance
  | getRentExemptionMin
  | sendTransaction
  | confirmTransaction
  | getSignaturesForAddress
  deriving DecidableEq, Repr

/-- One remote call as it appears in a workflow's call trace; `viaRetry`
records whether the call site wraps the call in `withRetry`. -/
structure RpcCall where
  method : RpcMethod
  viaRetry : Bool
  deriving DecidableEq, Repr

/-- State of the `asyncPool` event loop from `BalanceTxFilter/index.js`:
`results` holds one slot per input (`none` = that input's promise is still
unresolved; the promises are pushed onto `ret` in input order), `executing`
holds the indices of the in-flight tracked promises. -/
structure PoolState (β : Type) where
  results : List (Option β)
  executing : List Nat
  deriving Repr

/-- The value the promise for slot `j` resolves to: `iteratorFn` applied to
the `j`-th input. -/
def taskSlot {α β : Type} (inputs : List α) (task : α → β) (j : Nat) : Option β :=
  (inputs.get? j).map task

/-- One settlement step of the event loop: the schedule adversarially picks
one in-flight promise (this is `await Promise.race(executing)` together with
the `splice` callback that removes the settled promise), and its slot
receives its value. -/
def poolResolveOne {β : Type} (slotVal : Nat → Option β) (pick : Nat)
    (s : PoolState β) : PoolState β :=
  if s.executing.isEmpty then s
  else
    PoolState.mk
      (s.results.set (s.executing.getD (pick % s.executing.length) 0)
        (slotVal (s.executing.getD (pick % s.executing.length) 0)))
      (s.executing.eraseIdx (pick % s.executing.length))

/-- The `for (const item of array)` dispatch loop of `asyncPool`: each input
index is started in order; when `poolLimit <= array.length` the promise is
tracked in `executing`, and once `executing.length >= poolLimit` the loop
awaits one settlement chosen by the schedule `sched`. -/
def poolDispatch {β : Type} (limit total : Nat) (slotVal : Nat → Option β)
    (sched : Nat → Nat) : List Nat → Nat → PoolState β → PoolState β
  | [], _, s => s
  | i :: rest, t, s =>
    if limit ≤ total then
      poolDispatch limit total slotVal sched rest (t + 1)
        (if limit ≤ s.executing.length + 1 then
          poolResolveOne slotVal (sched t) (PoolState.mk s.results (s.executing ++ [i]))
        else PoolState.mk s.results (s.executing ++ [i]))
    else poolDispatch limit total slotVal sched rest (t + 1) s

/-- After the dispatch loop, the still-in-flight promises settle one by one
in schedule order. -/
def poolDrain {β : Type} (slotVal : Nat → Option β) (sched : Nat → Nat) :
    Nat → Nat → PoolState β → PoolState β
  | 0, _, s => s
  | fuel + 1, t, s =>
    if s.executing.isEmpty then s
    else poolDrain slotVal sched fuel (t + 1) (poolResolveOne slotVal (sched t) s)

/-- Drain every remaining in-flight promise. -/
def poolDrainAll {β : Type} (slotVal : Nat → Option β) (sched : Nat → Nat)
    (t : Nat) (s : PoolState β) : PoolState β :=
  poolDrain slotVal sched s.executing.length t s

/-- `Promise.all(ret)`: the `j`-th returned element is the settled value of
the `j`-th pushed promise (a slot that was never tracked in `executing`
settles here). -/
def poolCollect {β : Type} (total : Nat) (slotVal : Nat → Option β)
    (rs : List (Option β)) : List (Option β) :=
  (List.range total).map (fun j =>
    match rs.get? j with
    | some (some v) => some v
    | _ => slotVal j)

/-- `asyncPool(poolLimit, array, iteratorFn)` from `BalanceTxFilter/index.js`
under an adversarial settlement schedule `sched`: returns the list of settled
values, one per input. -/
def asyncPoolModel {α β : Type} (limit : Nat) (inputs : List α) (task : α → β)
    (sched : Nat → Nat) : List (Option β) :=
  poolCollect inputs.length (taskSlot inputs task)
    (poolDrainAll (taskSlot inputs task) sched inputs.length
      (poolDispatch limit inputs.length (taskSlot inputs task) sched
        (List.range inputs.length) 0
        (PoolState.mk (List.replicate inputs.length none) []))).results

/-- Every already-settled slot holds the value of its own input's task. -/
def ResultsOk {β : Type} (slotVal : Nat → Option β) (rs : List (Option β)) : Prop :=
  ∀ j o, rs.get? j = some o → o = none ∨ o = slotVal j

/-- The record accumulated for a qualifying wallet by the scan program
(`walletInfo` in `checkWallet`): the address, the balance converted to the
decimal unit (`balanceLamports / 1e9`), and the observed transaction count. -/
structure WalletInfo where
  address : String
  balance : ℚ
  transactionCount : Nat
  deriving DecidableEq, Repr

/-- Scan configuration: `min_balance_sol` and the inclusive
`transaction_count_range` `[txMin, txMax]`. -/
structure ScanConfig where
  minBalanceSol : ℚ
  txMin : Nat
  txMax : Nat
  deriving DecidableEq, Repr

/-- `const minBalanceLamports = min_balance_sol * 1e9`. -/
def ScanConfig.minBalanceLamports (cfg : ScanConfig) : ℚ :=
  cfg.minBalanceSol * 1000000000

/-- Remote behaviour observed by one scan task: whether `new PublicKey`
succeeds on the address, the balance query outcome (as surfaced by its
`withRetry` wrapper), and the wallet's true signature-history length (the
RPC returns at most `limit` entries of it). -/
structure ScanOracle where
  parsesOk : String → Bool
  balanceOf : String → Except String Nat
  sigCountOf : String → Except String Nat

/-- `checkWallet(address)` from `BalanceTxFilter/index.js`: parse the
address, query the balance through `withRetry`, short-circuit below the
minimum, query the signature page (`limit: 1000`) through `withRetry`, apply
the inclusive count range, and emit the record; every raised error is caught
and turned into `null` (`none`).  Returns the result and the trace of remote
calls made. -/
def checkWallet (o : ScanOracle) (cfg : ScanConfig) (address : String) :
    Option WalletInfo × List RpcCall :=
  if o.parsesOk address then
    match o.balanceOf address with
    | .error _ => (none, [RpcCall.mk .getBalance true])
    | .ok balanceLamports =>
      if (balanceLamports : ℚ) < cfg.minBalanceLamports then
        (none, [RpcCall.mk .getBalance true])
      else
        match o.sigCountOf address with
        | .error _ =>
          (none, [RpcCall.mk .getBalance true, RpcCall.mk .getSignaturesForAddress true])
        | .ok fullCount =>
          if min fullCount 1000 < cfg.txMin ∨ cfg.txMax < min fullCount 1000 then
            (none, [RpcCall.mk .getBalance true, RpcCall.mk .getSignaturesForAddress true])
          else
            (some (WalletInfo.mk address ((balanceLamports : ℚ) / 1000000000)
                (min fullCount 1000)),
             [RpcCall.mk .getBalance true, RpcCall.mk .getSignaturesForAddress true])
  else (none, [])

/-- The per-wallet scan processing raises an error: the address fails to
parse, the balance query fails (e.g. with `RetryExhausted`), or the balance
passes the minimum check and the signature query fails. -/
def walletProcessingFails (o : ScanOracle) (cfg : ScanConfig) (a : String) : Prop :=
  o.parsesOk a = false
  ∨ (∃ e, o.balanceOf a = .error e)
  ∨ (∃ b, o.balanceOf a = .ok b ∧ cfg.minBalanceLamports ≤ (b : ℚ)
      ∧ ∃ e, o.sigCountOf a = .error e)

/-- JS `String.prototype.trim` on a character list. -/
def trimChars (cs : List Char) : List Char :=
  ((cs.dropWhile Char.isWhitespace).reverse.dropWhile Char.isWhitespace).reverse

/-- JS `String.prototype.split` at commas: `"a,b" ↦ ["a","b"]`, `"" ↦ [""]`,
`"a," ↦ ["a",""]`. -/
def splitOnComma (cs : List Char) : List (List Char) :=
  cs.foldr
    (fun c acc =>
      if c = ',' then [] :: acc
      else
        match acc with
        | [] => [[c]]
        | g :: gs => (c :: g) :: gs)
    [[]]

/-- Value of a decimal digit string. -/
def digitsToNat (ds : List Char) : Nat :=
  ds.foldl (fun n c => n * 10 + (c.toNat - 48)) 0

/-- JS `parseInt(s, 10)`: skip leading whitespace, optional sign, longest
decimal-digit prefix; `none` models `NaN` (no digits found). -/
def parseIntDec (cs : List Char) : Option Int :=
  match cs.dropWhile Char.isWhitespace with
  | '-' :: rest =>
    if (rest.takeWhile Char.isDigit).isEmpty then none
    else some (-(digitsToNat (rest.takeWhile Char.isDigit) : Int))
  | '+' :: rest =>
    if (rest.takeWhile Char.isDigit).isEmpty then none
    else some ((digitsToNat (rest.takeWhile Char.isDigit) : Int))
  | rest =>
    if (rest.takeWhile Char.isDigit).isEmpty then none
    else some ((digitsToNat (rest.takeWhile Char.isDigit) : Int))

/-- `Uint8Array.from` element conversion applied to a `parseInt` result:
`NaN` becomes 0, any other integer is reduced modulo 256. -/
def toUint8 (v : Option Int) : Nat :=
  match v with
  | none => 0
  | some z => (z % 256).toNat

/-- The base-58 alphabet used by the `bs58` collaborator. -/
def b58Alphabet : List Char :=
  "123456789ABCDEFGHJKLMNPQRSTUVWXYZabcdefghijkmnopqrstuvwxyz".toList

/-- Digit value of a character in the base-58 alphabet, `none` when the
character is outside the alphabet. -/
def b58DigitVal (c : Char) : Option Nat :=
  b58Alphabet.findIdx? (fun x => x == c)

/-- Every character of the string lies in the base-58 alphabet. -/
def b58Valid (cs : List Char) : Bool :=
  cs.all (fun c => (b58DigitVal c).isSome)

/-- Big-endian base-256 digits of a natural number (fuel-structured). -/
def natToBytesGo : Nat → Nat → List Nat
  | 0, _ => []
  | fuel + 1, n => if n = 0 then [] else natToBytesGo fuel (n / 256) ++ [n % 256]

/-- Big-endian byte representation of a natural number. -/
def natToBytes (n : Nat) : List Nat := natToBytesGo n n

/-- Modelled from the spec: the third-party `bs58.decode` collaborator
(the `bs58` package is not part of this repository's source); per the spec a
base-58 string must decode to a byte layout or parsing fails, and decoding
throws exactly when a character lies outside the base-58 alphabet. -/
def bs58Decode (cs : List Char) : Option (List Nat) :=
  if b58Valid cs then
    some (List.replicate (cs.takeWhile (fun c => c = '1')).length 0
      ++ natToBytes (cs.foldl (fun acc c => acc * 58 + (b58DigitVal c).getD 0) 0))
  else none

/-- The trimmed line is a bracketed byte-array literal
(`startsWith` the opening bracket and `endsWith` the closing one). -/
def isBracketed (l : List Char) : Bool :=
  (l.head? == some '[') && (l.getLast? == some ']')

/-- `parsePrivateKey(line)` from `SolanaCollector/main.js` over characters:
trim; a bracketed line is sliced, split on commas and converted entrywise by
`parseInt` then `Uint8Array.from`; any other line is base-58 decoded,
rethrown as `Invalid Base58 format` when decoding throws. -/
def parsePrivateKeyChars (cs : List Char) : Except String (List Nat) :=
  if isBracketed (trimChars cs) then
    .ok ((splitOnComma (((trimChars cs).drop 1).dropLast)).map
      (fun num => toUint8 (parseIntDec (trimChars num))))
  else
    match bs58Decode (trimChars cs) with
    | some bytes => .ok bytes
    | none => .error "Invalid Base58 format"

/-- `parsePrivateKey` on a string input line. -/
def parsePrivateKey (line : String) : Except String (List Nat) :=
  parsePrivateKeyChars line.toList

/-- The settlement behaviour of the polled confirmation promise: the time in
milliseconds at which `connection.confirmTransaction` settles, and its
result. -/
structure ConfirmBehavior (α : Type) where
  settleAtMs : Nat
  result : Except String α

/-- Outcome of `confirmTransactionWithTimeout`: the confirmation result, a
propagated confirmation failure, or the timeout rejection carrying the
elapsed wait in seconds. -/
inductive ConfirmOutcome (α : Type) where
  | ok (v : α)
  | opFailed (msg : String)
  | confirmationTimeout (seconds : Nat)
  deriving DecidableEq, Repr

/-- `confirmTransactionWithTimeout` from `SolanaCollector/main.js`: a race
between a `setTimeout` timer of `timeoutSeconds * 1000` ms and the
confirmation promise; whichever settles first wins.  The boolean records
whether `clearTimeout` released the timer (it is called on both the resolve
and the reject path of the operation). -/
def confirmTransactionWithTimeout {α : Type} (op : ConfirmBehavior α)
    (timeoutSeconds : Nat) : ConfirmOutcome α × Bool :=
  if op.settleAtMs < timeoutSeconds * 1000 then
    match op.result with
    | .ok v => (.ok v, true)
    | .error e => (.opFailed e, true)
  else (.confirmationTimeout timeoutSeconds, false)

/-- Log events emitted by the sweep loop (info stream vs error stream). -/
inductive LogEvent where
  | info (msg : String)
  | err (msg : String)
  deriving DecidableEq, Repr

/-- The transfer built by `SystemProgram.transfer` before submission:
sender, recipient and the lamport amount placed into the transaction. -/
structure TransferIntent where
  fromPubkey : String
  toPubkey : String
  lamports : ℚ
  deriving DecidableEq, Repr

/-- `LAMPORTS_PER_SOL`. -/
def lamportsPerSol : ℚ := 1000000000

/-- Remote behaviour observed while sweeping one sender wallet. -/
structure SweepOracle where
  senderPubkey : String
  recipientPubkey : String
  getBalance : Except String Nat
  getRentMin : Except String Nat
  sendTx : TransferIntent → Except String String
  confirm : ConfirmBehavior Unit

/-- Terminal state of one sweep-loop iteration (`failed` covers any error
caught by the per-wallet catch block, which logs and continues). -/
inductive SweepResult where
  | failed (msg : String)
  | skippedInsufficient
  | success (signatureId : String)
  deriving DecidableEq, Repr

/-- Observable outcome of one sweep iteration: terminal state, remote-call
trace, transfer intents constructed, and log entries written. -/
structure SweepStep where
  result : SweepResult
  calls : List RpcCall
  intents : List TransferIntent
  logs : List LogEvent
  deriving DecidableEq, Repr

/-- One iteration of the sweep loop of `SolanaCollector/main.js`: query the
balance and the zero-size rent-exemption reserve directly on the connection,
compute `amountToSend = balance - reserve - fee_sol * LAMPORTS_PER_SOL`,
skip with an info log when it is ≤ 0, otherwise build the transfer, submit
it, and await confirmation under the timeout.  None of the remote calls is
wrapped in a retry helper (the sweep program contains none), which the
`viaRetry := false` flags record. -/
def sweepWallet (feeSol : ℚ) (timeoutSeconds : Nat) (o : SweepOracle) : SweepStep :=
  match o.getBalance with
  | .error e => SweepStep.mk (.failed e) [RpcCall.mk .getBalance false] [] [.err e]
  | .ok senderBalanceLamports =>
    match o.getRentMin with
    | .error e =>
      SweepStep.mk (.failed e)
        [RpcCall.mk .getBalance false, RpcCall.mk .getRentExemptionMin false] [] [.err e]
    | .ok minimumBalance =>
      if (senderBalanceLamports : ℚ) - (minimumBalance : ℚ) - feeSol * lamportsPerSol ≤ 0
      then
        SweepStep.mk .skippedInsufficient
          [RpcCall.mk .getBalance false, RpcCall.mk .getRentExemptionMin false] []
          [.info "Insufficient balance"]
      else
        match o.sendTx (TransferIntent.mk o.senderPubkey o.recipientPubkey
            ((senderBalanceLamports : ℚ) - (minimumBalance : ℚ)
              - feeSol * lamportsPerSol)) with
        | .error e =>
          SweepStep.mk (.failed e)
            [RpcCall.mk .getBalance false, RpcCall.mk .getRentExemptionMin false,
             RpcCall.mk .sendTransaction false]
            [TransferIntent.mk o.senderPubkey o.recipientPubkey
              ((senderBalanceLamports : ℚ) - (minimumBalance : ℚ)
                - feeSol * lamportsPerSol)]
            [.err e]
        | .ok signatureId =>
          match confirmTransactionWithTimeout o.confirm timeoutSeconds with
          | (.ok _, _) =>
            SweepStep.mk (.success signatureId)
              [RpcCall.mk .getBalance false, RpcCall.mk .getRentExemptionMin false,
               RpcCall.mk .sendTransaction false, RpcCall.mk .confirmTransaction false]
              [TransferIntent.mk o.senderPubkey o.recipientPubkey
                ((senderBalanceLamports : ℚ) - (minimumBalance : ℚ)
                  - feeSol * lamportsPerSol)]
              [.info "Sent"]
          | (.opFailed e, _) =>
            SweepStep.mk (.failed e)
              [RpcCall.mk .getBalance false, RpcCall.mk .getRentExemptionMin false,
               RpcCall.mk .sendTransaction false, RpcCall.mk .confirmTransaction false]
              [TransferIntent.mk o.senderPubkey o.recipientPubkey
                ((senderBalanceLamports : ℚ) - (minimumBalance : ℚ)
                  - feeSol * lamportsPerSol)]
              [.err e]
          | (.confirmationTimeout _, _) =>
            SweepStep.mk (.failed "Transaction was not confirmed in time")
              [RpcCall.mk .getBalance false, RpcCall.mk .getRentExemptionMin false,
               RpcCall.mk .sendTransaction false, RpcCall.mk .confirmTransaction false]
              [TransferIntent.mk o.senderPubkey o.recipientPubkey
                ((senderBalanceLamports : ℚ) - (minimumBalance : ℚ)
                  - feeSol * lamportsPerSol)]
              [.err "Transaction was not confirmed in time"]

/-- The sweep loop over the sender wallets: each iteration runs and the loop
continues with the next wallet regardless of the iteration's outcome. -/
def sweepRun (feeSol : ℚ) (timeoutSeconds : Nat) (os : List SweepOracle) :
    List SweepStep :=
  os.map (sweepWallet feeSol timeoutSeconds)

/-- Sweep oracle fixture: 2 SOL balance, 890880 lamports rent reserve,
healthy submission and fast confirmation. -/
def sweepOracleRich : SweepOracle :=
  SweepOracle.mk "senderPk" "recipientPk" (.ok 2000000000) (.ok 890880)
    (fun _ => .ok "sig1") (ConfirmBehavior.mk 100 (.ok ()))

/-- Sweep oracle fixture: 1000 lamports balance, below reserve + fee. -/
def sweepOracleBroke : SweepOracle :=
  SweepOracle.mk "senderPk" "recipientPk" (.ok 1000) (.ok 890880)
    (fun _ => .ok "sig1") (ConfirmBehavior.mk 100 (.ok ()))

/-- Sweep oracle fixture for the fractional-fee counterexample: 2 lamports
balance, zero reserve. -/
def sweepOracleTiny : SweepOracle :=
  SweepOracle.mk "senderPk" "recipientPk" (.ok 2) (.ok 0)
    (fun _ => .ok "sig1") (ConfirmBehavior.mk 100 (.ok ()))

/-- Scan configuration fixture: minimum 1 SOL, transaction count range
`[1, 10]`. -/
def scanCfgA : ScanConfig := ScanConfig.mk 1 1 10

/-- Oracle fixture: every address parses, balance 2 SOL, 5 signatures. -/
def scanOracleA : ScanOracle :=
  ScanOracle.mk (fun _ => true) (fun _ => .ok 2000000000) (fun _ => .ok 5)

/-- Oracle fixture: every address parses, balance 5 lamports (below any
SOL-scale minimum), 5 signatures. -/
def scanOraclePoor : ScanOracle :=
  ScanOracle.mk (fun _ => true) (fun _ => .ok 5) (fun _ => .ok 5)

/-- Oracle fixture: the address `w1` fails to parse, everything else is
healthy. -/
def scanOracleBadAddr : ScanOracle :=
  ScanOracle.mk (fun a => a != "w1") (fun _ => .ok 2000000000) (fun _ => .ok 5)

lemma withRetryGo_ok {α : Type} (v : α) :
    ∀ (k fuel a d : Nat), k < fuel →
      withRetryGo (rateLimitedThen (a + k) v) fuel a d = (.ok v, k + 1, backoffDelays d k) := by
  intro k
  induction k with
  | zero =>
    intro fuel a d h
    match fuel, h with
    | fuel + 1, _ =>
      simp [withRetryGo, rateLimitedThen, backoffDelays]
  | succ k ih =>
    intro fuel a d h
    match fuel, h with
    | fuel + 1, h =>
      have h1 : a < a + (k + 1) := by omega
      have hrw : a + (k + 1) = (a + 1) + k := by omega
      simp only [withRetryGo, rateLimitedThen, if_pos h1]
      rw [hrw, ih fuel (a + 1) (d * 2) (by omega)]
      simp [backoffDelays, rateLimitedThen]

lemma withRetryGo_exhaust {α : Type} (v : α) :
    ∀ (fuel k a d : Nat), fuel ≤ k →
      withRetryGo (rateLimitedThen (a + k) v) fuel a d =
        (.exhausted, fuel, backoffDelays d fuel) := by
  intro fuel
  induction fuel with
  | zero =>
    intro k a d _
    simp [withRetryGo, backoffDelays]
  | succ fuel ih =>
    intro k a d h
    match k, h with
    | k + 1, h =>
      have h1 : a < a + (k + 1) := by omega
      have hrw : a + (k + 1) = (a + 1) + k := by omega
      simp only [withRetryGo, rateLimitedThen, if_pos h1]
      rw [hrw, ih k (a + 1) (d * 2) (by omega)]
      simp [backoffDelays, rateLimitedThen]

lemma withRetryGo_failed {α : Type} (fn : Nat → CallOutcome α) (e : String)
    (fuel a d : Nat) (h : fn a = .failed e) :
    withRetryGo fn (fuel + 1) a d = (.failed e, 1, []) := by
  simp [withRetryGo, h]

/-- C2: for a zero-argument async operation that fails with a
rate-limit-classified error exactly `k` times and then succeeds, `withRetry`
returns the success result after exactly `k` retries waiting
`initialDelay, 2·initialDelay, 4·initialDelay, …` when `k < maxRetries`
(`k + 1` invocations in total); when `k ≥ maxRetries` it fails with
`RetryExhausted` (`Maximum retry attempts reached`) after exactly
`maxRetries` invocations; and a failure not classified as rate-limited is
propagated immediately after a single invocation, with no waits. -/
theorem withRetry_spec (α : Type) (v : α) (k retries d : Nat) (hr : 0 < retries) :
    (k < retries →
      withRetry (rateLimitedThen k v) retries d = (.ok v, k + 1, backoffDelays d k))
  ∧ (retries ≤ k →
      withRetry (rateLimitedThen k v) retries d =
        (.exhausted, retries, backoffDelays d retries))
  ∧ (∀ (fn : Nat → CallOutcome α) (e : String), fn 0 = .failed e →
      withRetry fn retries d = (.failed e, 1, [])) := by
  refine ⟨?_, ?_, ?_⟩
  · intro h
    have h0 := withRetryGo_ok v k retries 0 d h
    simpa [withRetry] using h0
  · intro h
    have h0 := withRetryGo_exhaust v retries k 0 d h
    simpa [withRetry] using h0
  · intro fn e h
    match retries, hr with
    | retries + 1, _ =>
      exact withRetryGo_failed fn e retries 0 d h

/-- Witness for C2 at concrete inputs: two rate-limited failures then success
with five allowed attempts, nine failures with five allowed attempts, and a
non-rate-limited failure. -/
theorem withRetry_spec_witness :
    (0 < 5)
  ∧ withRetry (rateLimitedThen 2 (7 : Nat)) 5 500 = (.ok 7, 3, [500, 1000])
  ∧ withRetry (rateLimitedThen 9 (7 : Nat)) 5 500 =
      (.exhausted, 5, [500, 1000, 2000, 4000, 8000])
  ∧ withRetry (fun _ => (CallOutcome.failed "connection reset" : CallOutcome Nat)) 5 500 =
      (.failed "connection reset", 1, []) := by
  have h2 := withRetry_spec Nat 7 2 5 500 (by decide)
  have h9 := withRetry_spec Nat 7 9 5 500 (by decide)
  exact ⟨by decide,
    (h2.1 (by decide)).trans (by decide),
    (h9.2.1 (by decide)).trans (by decide),
    (h2.2.2 (fun _ => (CallOutcome.failed "connection reset" : CallOutcome Nat))
      "connection reset" rfl).trans (by decide)⟩

lemma get?_set_cases {β : Type} :
    ∀ (rs : List (Option β)) (j j' : Nat) (a o : Option β),
      (rs.set j a).get? j' = some o → (j = j' ∧ o = a) ∨ rs.get? j' = some o := by
  intro rs
  induction rs with
  | nil => intro j j' a o h; simp at h
  | cons r rs ih =>
    intro j j' a o h
    cases j with
    | zero =>
      cases j' with
      | zero =>
        simp at h
        exact Or.inl ⟨rfl, h.symm⟩
      | succ n =>
        exact Or.inr (by simpa using h)
    | succ m =>
      cases j' with
      | zero =>
        exact Or.inr (by simpa using h)
      | succ n =>
        have h2 : (rs.set m a).get? n = some o := by simpa using h
        rcases ih m n a o h2 with h3 | h3
        · exact Or.inl ⟨by omega, h3.2⟩
        · exact Or.inr (by simpa using h3)

lemma resultsOk_set {β : Type} (f : Nat → Option β) (rs : List (Option β)) (j : Nat)
    (h : ResultsOk f rs) : ResultsOk f (rs.set j (f j)) := by
  intro j' o hj'
  rcases get?_set_cases rs j j' (f j) o hj' with h1 | h1
  · rcases h1 with ⟨hjj, ho⟩
    subst hjj
    exact Or.inr ho
  · exact h j' o h1

lemma poolResolveOne_ok {β : Type} (f : Nat → Option β) (p : Nat) (s : PoolState β)
    (h : ResultsOk f s.results) : ResultsOk f (poolResolveOne f p s).results := by
  unfold poolResolveOne
  by_cases he : s.executing.isEmpty
  · simpa [he] using h
  · simpa [he] using resultsOk_set f s.results _ h

lemma poolDispatch_ok {β : Type} (limit total : Nat) (f : Nat → Option β)
    (sched : Nat → Nat) :
    ∀ (idxs : List Nat) (t : Nat) (s : PoolState β), ResultsOk f s.results →
      ResultsOk f (poolDispatch limit total f sched idxs t s).results := by
  intro idxs
  induction idxs with
  | nil => intro t s h; simpa [poolDispatch] using h
  | cons i rest ih =>
    intro t s h
    by_cases hl : limit ≤ total
    · simp only [poolDispatch, if_pos hl]
      by_cases h2 : limit ≤ s.executing.length + 1
      · simp only [if_pos h2]
        exact ih _ _ (poolResolveOne_ok f _ _ h)
      · simp only [if_neg h2]
        exact ih _ _ h
    · simp only [poolDispatch, if_neg hl]
      exact ih _ _ h

lemma poolDrain_ok {β : Type} (f : Nat → Option β) (sched : Nat → Nat) :
    ∀ (fuel t : Nat) (s : PoolState β), ResultsOk f s.results →
      ResultsOk f (poolDrain f sched fuel t s).results := by
  intro fuel
  induction fuel with
  | zero => intro t s h; simpa [poolDrain] using h
  | succ fuel ih =>
    intro t s h
    by_cases he : s.executing.isEmpty
    · simpa [poolDrain, he] using h
    · simp only [poolDrain, if_neg he]
      exact ih _ _ (poolResolveOne_ok f _ _ h)

lemma map_eq_of_forall {α β : Type} (g1 g2 : α → β) :
    ∀ (l : List α), (∀ a ∈ l, g1 a = g2 a) → l.map g1 = l.map g2 := by
  intro l
  induction l with
  | nil => intro _; rfl
  | cons a l ih =>
    intro h
    simp only [List.map_cons]
    rw [h a (by simp), ih (fun x hx => h x (by simp [hx]))]

lemma poolCollect_ok {β : Type} (total : Nat) (f : Nat → Option β)
    (rs : List (Option β)) (h : ResultsOk f rs) :
    poolCollect total f rs = (List.range total).map f := by
  unfold poolCollect
  apply map_eq_of_forall
  intro j _
  cases hrs : rs.get? j with
  | none => rfl
  | some o =>
    cases o with
    | none => rfl
    | some v =>
      rcases h j (some v) hrs with h1 | h1
      · exact absurd h1 (by simp)
      · simpa using h1

lemma range_map_taskSlot {α β : Type} (task : α → β) :
    ∀ (inputs : List α),
      (List.range inputs.length).map (taskSlot inputs task) =
        inputs.map (fun a => some (task a)) := by
  intro inputs
  induction inputs with
  | nil => rfl
  | cons a tl ih =>
    simp only [List.length_cons, List.range_succ_eq_map, List.map_cons, List.map_map]
    refine congrArg₂ List.cons rfl ?_
    rw [← ih]
    apply map_eq_of_forall
    intro j _
    rfl

lemma asyncPool_eq_map {α β : Type} (limit : Nat) (inputs : List α) (task : α → β)
    (sched : Nat → Nat) :
    asyncPoolModel limit inputs task sched = inputs.map (fun a => some (task a)) := by
  have h0 : ResultsOk (taskSlot inputs task) (List.replicate inputs.length none) := by
    intro j o h
    exact Or.inl (List.eq_of_mem_replicate (List.get?_mem h))
  have h1 := poolDispatch_ok limit inputs.length (taskSlot inputs task) sched
    (List.range inputs.length) 0 (PoolState.mk (List.replicate inputs.length none) []) h0
  have h2 := poolDrain_ok (taskSlot inputs task) sched
    ((poolDispatch limit inputs.length (taskSlot inputs task) sched
      (List.range inputs.length) 0
      (PoolState.mk (List.replicate inputs.length none) [])).executing.length)
    inputs.length
    (poolDispatch limit inputs.length (taskSlot inputs task) sched
      (List.range inputs.length) 0
      (PoolState.mk (List.replicate inputs.length none) []))
    h1
  unfold asyncPoolModel poolDrainAll
  rw [poolCollect_ok _ _ _ h2, range_map_taskSlot]

/-- C3: for every input sequence, every concurrency limit and every
settlement schedule (resolution order), `asyncPool` returns a sequence equal
to the input sequence mapped through the task — in particular it has the
same length as the input sequence and its `i`-th element is the task's result
on the `i`-th input. -/
theorem asyncPool_preserves_order (α β : Type) (limit : Nat) (inputs : List α)
    (task : α → β) (sched : Nat → Nat) :
    asyncPoolModel limit inputs task sched = inputs.map (fun a => some (task a)) :=
  asyncPool_eq_map limit inputs task sched

/-- C4: a scan task whose wallet processing raises (bad address, failed
balance query, or failed signature query) does not abort the pool run: the
run still returns one settled slot per input, the failing wallet's slot
settles to the `null` marker (`none`), and every other slot settles to its
own wallet's result. -/
theorem scan_task_failure_isolated (o : ScanOracle) (cfg : ScanConfig) (limit : Nat)
    (inputs : List String) (sched : Nat → Nat) :
    asyncPoolModel limit inputs (fun a => (checkWallet o cfg a).1) sched =
      inputs.map (fun a => some ((checkWallet o cfg a).1))
  ∧ (∀ a, a ∈ inputs → walletProcessingFails o cfg a →
      (checkWallet o cfg a).1 = none) := by
  constructor
  · exact asyncPool_eq_map limit inputs (fun a => (checkWallet o cfg a).1) sched
  · intro a _ hf
    rcases hf with hp | ⟨e, he⟩ | ⟨b, hb, hmin, e, he⟩
    · simp [checkWallet, hp]
    · by_cases hp : o.parsesOk a = true <;> simp [checkWallet, hp, he]
    · by_cases hp : o.parsesOk a = true <;>
        simp [checkWallet, hp, hb, he, not_lt.mpr hmin]

/-- Witness for C4: a two-wallet scan in which `w1` has an unparsable
address; its slot is the `null` marker. -/
theorem scan_task_failure_isolated_witness :
    ("w1" ∈ ["w1", "w2"])
  ∧ walletProcessingFails scanOracleBadAddr scanCfgA "w1"
  ∧ (checkWallet scanOracleBadAddr scanCfgA "w1").1 = none := by
  refine ⟨by decide, Or.inl (by decide), ?_⟩
  exact (scan_task_failure_isolated scanOracleBadAddr scanCfgA 2 ["w1", "w2"]
    (fun _ => 0)).2 "w1" (by decide) (Or.inl (by decide))

/-- C6: in the scan workflow, a wallet whose queried balance is below the
configured minimum is excluded right after the balance query: its result is
`null` and its call trace contains no signature-history query. -/
theorem checkWallet_short_circuit (o : ScanOracle) (cfg : ScanConfig) (a : String)
    (b : Nat) (hb : o.balanceOf a = .ok b) (hlt : (b : ℚ) < cfg.minBalanceLamports) :
    (checkWallet o cfg a).1 = none
  ∧ (checkWallet o cfg a).2.all
      (fun c => !(c.method == RpcMethod.getSignaturesForAddress)) = true := by
  unfold checkWallet
  by_cases hp : o.parsesOk a = true
  · rw [if_pos hp, hb]
    simp [if_pos hlt]
  · rw [if_neg hp]
    simp

/-- Witness for C6: balance 5 lamports against a 1 SOL minimum. -/
theorem checkWallet_short_circuit_witness :
    scanOraclePoor.balanceOf "w" = .ok 5
  ∧ ((5 : ℚ) < scanCfgA.minBalanceLamports)
  ∧ (checkWallet scanOraclePoor scanCfgA "w").1 = none
  ∧ (checkWallet scanOraclePoor scanCfgA "w").2.all
      (fun c => !(c.method == RpcMethod.getSignaturesForAddress)) = true := by
  have hlt : (5 : ℚ) < scanCfgA.minBalanceLamports := by
    norm_num [scanCfgA, ScanConfig.minBalanceLamports]
  have h := checkWallet_short_circuit scanOraclePoor scanCfgA "w" 5 rfl
    (by exact_mod_cast hlt)
  exact ⟨rfl, hlt, h.1, h.2⟩

/-- C7: the scan workflow emits a `WalletRecord` for a wallet exactly when
the address parses, the observed balance is at least the configured minimum,
and the observed transaction count (the signature page capped at 1000) lies
within the inclusive configured range; the emitted record, unique by
construction, carries the address, the decimal-converted balance and the
capped count. -/
theorem checkWallet_record_characterization (o : ScanOracle) (cfg : ScanConfig)
    (a : String) (b n : Nat) (hb : o.balanceOf a = .ok b)
    (hn : o.sigCountOf a = .ok n) :
    (checkWallet o cfg a).1 =
      if o.parsesOk a = true ∧ cfg.minBalanceLamports ≤ (b : ℚ)
          ∧ cfg.txMin ≤ min n 1000 ∧ min n 1000 ≤ cfg.txMax
      then some (WalletInfo.mk a ((b : ℚ) / 1000000000) (min n 1000))
      else none := by
  unfold checkWallet
  by_cases hp : o.parsesOk a = true
  · rw [if_pos hp, hb]
    by_cases hbal : (b : ℚ) < cfg.minBalanceLamports
    · simp [hbal, not_le.mpr hbal, hp]
    · rw [hn]
      by_cases hc : min n 1000 < cfg.txMin ∨ cfg.txMax < min n 1000
      · have hnot : ¬ (cfg.txMin ≤ min n 1000 ∧ min n 1000 ≤ cfg.txMax) := by
          rcases hc with h | h
          · exact fun hand => absurd hand.1 (not_le.mpr h)
          · exact fun hand => absurd hand.2 (not_le.mpr h)
        simp only [if_neg hbal, if_pos hc]
        rw [if_neg]
        intro hand
        exact hnot ⟨hand.2.2.1, hand.2.2.2⟩
      · simp only [if_neg hbal, if_neg hc]
        rw [if_pos]
        push_neg at hc
        exact ⟨hp, not_lt.mp hbal, hc.1, hc.2⟩
  · rw [if_neg hp]
    rw [if_neg]
    intro hand
    exact hp hand.1

/-- Witness for C7: balance 2 SOL and 5 signatures against minimum 1 SOL and
count range `[1, 10]` yields exactly the record with decimal balance 2. -/
theorem checkWallet_record_characterization_witness :
    scanOracleA.balanceOf "w" = .ok 2000000000
  ∧ scanOracleA.sigCountOf "w" = .ok 5
  ∧ (checkWallet scanOracleA scanCfgA "w").1 = some (WalletInfo.mk "w" 2 5) := by
  have h := checkWallet_record_characterization scanOracleA scanCfgA "w" 2000000000 5
    rfl rfl
  refine ⟨rfl, rfl, ?_⟩
  have hcond : scanOracleA.parsesOk "w" = true
      ∧ scanCfgA.minBalanceLamports ≤ ((2000000000 : Nat) : ℚ)
      ∧ scanCfgA.txMin ≤ min 5 1000 ∧ min 5 1000 ≤ scanCfgA.txMax := by
    refine ⟨rfl, ?_, by norm_num [scanCfgA], by norm_num [scanCfgA]⟩
    norm_num [scanCfgA, ScanConfig.minBalanceLamports]
  rw [h, if_pos hcond]
  simp only [Option.some.injEq, WalletInfo.mk.injEq]
  norm_num

/-- C9 counterexample: `parsePrivateKey` accepts the two-entry byte-array
literal (a wrong-length array — secret keys are 64 bytes long) and accepts a
non-numeric entry by coercing the `parseInt` `NaN` to the byte 0; on neither
malformed input does it fail with the invalid-format error, it returns a
credential value. -/
theorem parsePrivateKey_wrong_length_cex :
    parsePrivateKey "[1,2]" = .ok [1, 2] ∧ parsePrivateKey "[1,zz]" = .ok [1, 0] :=
  ⟨rfl, rfl⟩

/-- C9 amended: `parsePrivateKey` fails with the invalid-format error
(`Invalid Base58 format`) exactly for non-bracketed lines containing a
character outside the base-58 alphabet; a bracketed byte-array literal
always parses (no length or digit validation — wrong lengths surface only
later in `Keypair.fromSecretKey`), and a valid base-58 line always
parses. -/
theorem parsePrivateKey_amended (line : String) :
    (isBracketed (trimChars line.toList) = false →
      b58Valid (trimChars line.toList) = false →
      parsePrivateKey line = .error "Invalid Base58 format")
  ∧ (isBracketed (trimChars line.toList) = true →
      ∃ bs, parsePrivateKey line = .ok bs)
  ∧ (isBracketed (trimChars line.toList) = false →
      b58Valid (trimChars line.toList) = true →
      ∃ bs, parsePrivateKey line = .ok bs) := by
  refine ⟨?_, ?_, ?_⟩
  · intro hbr hval
    have hbr2 : isBracketed (trimChars line.data) = false := hbr
    have hval2 : b58Valid (trimChars line.data) = false := hval
    simp [parsePrivateKey, parsePrivateKeyChars, hbr2, bs58Decode, hval2]
  · intro hbr
    have hbr2 : isBracketed (trimChars line.data) = true := hbr
    exact ⟨(splitOnComma (((trimChars line.data).drop 1).dropLast)).map
        (fun num => toUint8 (parseIntDec (trimChars num))),
      by simp [parsePrivateKey, parsePrivateKeyChars, hbr2]⟩
  · intro hbr hval
    have hbr2 : isBracketed (trimChars line.data) = false := hbr
    have hval2 : b58Valid (trimChars line.data) = true := hval
    exact ⟨List.replicate ((trimChars line.data).takeWhile (fun c => c = '1')).length 0
        ++ natToBytes ((trimChars line.data).foldl
          (fun acc c => acc * 58 + (b58DigitVal c).getD 0) 0),
      by simp [parsePrivateKey, parsePrivateKeyChars, hbr2, bs58Decode, hval2]⟩

/-- Witness for the amended C9: a line whose characters all lie outside the
base-58 alphabet fails with the invalid-format error. -/
theorem parsePrivateKey_amended_witness :
    isBracketed (trimChars ("O0Il" : String).toList) = false
  ∧ b58Valid (trimChars ("O0Il" : String).toList) = false
  ∧ parsePrivateKey "O0Il" = .error "Invalid Base58 format" :=
  ⟨rfl, rfl, (parsePrivateKey_amended "O0Il").1 rfl rfl⟩

/-- C8: if the polled confirmation settles before the timeout elapses,
`confirmTransactionWithTimeout` returns its result (and propagates its
failure) and releases the timer via `clearTimeout`; if the timeout elapses
first, it fails with the confirmation-timeout rejection carrying the elapsed
duration (`timeoutSeconds`). -/
theorem confirmWithTimeout_spec (α : Type) (op : ConfirmBehavior α)
    (timeoutSeconds : Nat) :
    (op.settleAtMs < timeoutSeconds * 1000 →
      ((∀ v, op.result = .ok v →
          confirmTransactionWithTimeout op timeoutSeconds = (.ok v, true))
        ∧ (∀ e, op.result = .error e →
          confirmTransactionWithTimeout op timeoutSeconds = (.opFailed e, true))))
  ∧ (timeoutSeconds * 1000 ≤ op.settleAtMs →
      confirmTransactionWithTimeout op timeoutSeconds =
        (.confirmationTimeout timeoutSeconds, false)) := by
  constructor
  · intro hlt
    constructor
    · intro v hv
      simp [confirmTransactionWithTimeout, hlt, hv]
    · intro e he
      simp [confirmTransactionWithTimeout, hlt, he]
  · intro hge
    simp [confirmTransactionWithTimeout, not_lt.mpr hge]

/-- Witness for C8: settlement at 500 ms beats a 60 s timeout and releases
the timer; settlement at 90000 ms loses to it and yields the timeout
rejection carrying 60. -/
theorem confirmWithTimeout_spec_witness :
    ((500 : Nat) < 60 * 1000)
  ∧ confirmTransactionWithTimeout (ConfirmBehavior.mk 500 (.ok (42 : Nat))) 60 =
      (.ok 42, true)
  ∧ ((60 : Nat) * 1000 ≤ 90000)
  ∧ confirmTransactionWithTimeout (ConfirmBehavior.mk 90000 (.ok (42 : Nat))) 60 =
      (.confirmationTimeout 60, false) := by
  refine ⟨by decide, ?_, by decide, ?_⟩
  · exact ((confirmWithTimeout_spec Nat (ConfirmBehavior.mk 500 (.ok 42)) 60).1
      (by decide)).1 42 rfl
  · exact (confirmWithTimeout_spec Nat (ConfirmBehavior.mk 90000 (.ok 42)) 60).2
      (by decide)

/-- C1 counterexample: on a healthy wallet the sweep makes its four remote
calls — balance, rent-exemption reserve, submission, confirmation — and none
of them goes through `withRetry` (the sweep program contains no retry
wrapper: `withRetry` lives only in the scan program). -/
theorem sweep_calls_direct_cex :
    (sweepWallet (1 / 1000) 60 sweepOracleRich).calls =
      [RpcCall.mk .getBalance false, RpcCall.mk .getRentExemptionMin false,
       RpcCall.mk .sendTransaction false, RpcCall.mk .confirmTransaction false] := by
  norm_num [sweepWallet, sweepOracleRich, confirmTransactionWithTimeout, lamportsPerSol]

/-- C1 amended: in the sweep workflow none of the remote calls (balance
query, rent-exemption reserve query, transaction submission, confirmation)
is invoked through the retry wrapper — they are direct connection calls;
retry wrapping occurs only around the scan workflow's balance and
signature-history queries. -/
theorem sweep_calls_never_via_retry (feeSol : ℚ) (timeoutSeconds : Nat)
    (o : SweepOracle) (so : ScanOracle) (cfg : ScanConfig) (a : String) :
    (sweepWallet feeSol timeoutSeconds o).calls.all (fun c => !c.viaRetry) = true
  ∧ (checkWallet so cfg a).2.all (fun c => c.viaRetry) = true := by
  constructor
  · rcases hgb : o.getBalance with e | B
    · simp [sweepWallet, hgb]
    · rcases hrm : o.getRentMin with e | R
      · simp [sweepWallet, hgb, hrm]
      · by_cases hle : (B : ℚ) - (R : ℚ) - feeSol * lamportsPerSol ≤ 0
        · simp [sweepWallet, hgb, hrm, hle]
        · rcases hs : o.sendTx (TransferIntent.mk o.senderPubkey o.recipientPubkey
              ((B : ℚ) - (R : ℚ) - feeSol * lamportsPerSol)) with e | sig
          · simp [sweepWallet, hgb, hrm, hle, hs]
          · rcases hcf : confirmTransactionWithTimeout o.confirm timeoutSeconds
              with ⟨out, tb⟩
            cases out <;> simp [sweepWallet, hgb, hrm, hle, hs, hcf]
  · by_cases hp : so.parsesOk a = true
    · rcases hbal : so.balanceOf a with e | b
      · simp [checkWallet, hp, hbal]
      · by_cases hlt : (b : ℚ) < cfg.minBalanceLamports
        · simp [checkWallet, hp, hbal, hlt]
        · rcases hsig : so.sigCountOf a with e | n
          · simp [checkWallet, hp, hbal, hlt, hsig]
          · simp [checkWallet, hp, hbal, hlt, hsig]
            split <;> simp
    · simp [checkWallet, hp]

/-- C5: with sender balance `B`, reserve `R` and configured fee
`fee_sol · LAMPORTS_PER_SOL`, the sweep computes
`amount = B - R - fee`; when the amount is ≤ 0 no `TransferIntent` is
constructed, nothing is submitted, the wallet is skipped with exactly one
informational (not error) log entry, and the loop continues with the next
wallet. -/
theorem sweep_skip_insufficient (feeSol : ℚ) (timeoutSeconds : Nat) (o : SweepOracle)
    (B R : Nat) (hB : o.getBalance = .ok B) (hR : o.getRentMin = .ok R)
    (hle : (B : ℚ) - (R : ℚ) - feeSol * lamportsPerSol ≤ 0) :
    sweepWallet feeSol timeoutSeconds o =
      SweepStep.mk .skippedInsufficient
        [RpcCall.mk .getBalance false, RpcCall.mk .getRentExemptionMin false] []
        [.info "Insufficient balance"]
  ∧ (∀ rest : List SweepOracle,
      sweepRun feeSol timeoutSeconds (o :: rest) =
        sweepWallet feeSol timeoutSeconds o :: sweepRun feeSol timeoutSeconds rest) := by
  constructor
  · simp [sweepWallet, hB, hR, hle]
  · intro rest
    rfl

/-- Witness for C5: balance 1000 lamports against reserve 890880 and fee
0.001 SOL — the wallet is skipped with an info log and no intent. -/
theorem sweep_skip_insufficient_witness :
    sweepOracleBroke.getBalance = .ok 1000
  ∧ (((1000 : Nat) : ℚ) - ((890880 : Nat) : ℚ) - (1 / 1000) * lamportsPerSol ≤ 0)
  ∧ sweepWallet (1 / 1000) 60 sweepOracleBroke =
      SweepStep.mk .skippedInsufficient
        [RpcCall.mk .getBalance false, RpcCall.mk .getRentExemptionMin false] []
        [.info "Insufficient balance"] := by
  have hle : ((1000 : Nat) : ℚ) - ((890880 : Nat) : ℚ) - (1 / 1000) * lamportsPerSol ≤ 0 := by
    push_cast
    norm_num [lamportsPerSol]
  exact ⟨rfl, hle,
    (sweep_skip_insufficient (1 / 1000) 60 sweepOracleBroke 1000 890880 rfl rfl hle).1⟩

/-- C10 counterexample: with `transaction_fee_sol = 1/2000000000` (half a
lamport, a value the code accepts and never rounds), the computed fee
`fee_sol * LAMPORTS_PER_SOL` is `1/2` (denominator 2, not an integer) and
the amount placed in the constructed `TransferIntent` is `3/2` — not an
integer number of lamports, falsifying the claim's unconditional
integrality. -/
theorem sweep_fee_fractional_cex :
    ((1 / 2000000000 : ℚ) * lamportsPerSol).den = 2
  ∧ (sweepWallet (1 / 2000000000) 60 sweepOracleTiny).intents =
      [TransferIntent.mk "senderPk" "recipientPk" (3 / 2)]
  ∧ ((3 : ℚ) / 2).den = 2 := by
  refine ⟨by norm_num [lamportsPerSol], ?_, by norm_num⟩
  norm_num [sweepWallet, sweepOracleTiny, confirmTransactionWithTimeout, lamportsPerSol]

/-- C10 amended: sweep arithmetic is carried out in lamport units — every
constructed `TransferIntent` carries the undivided lamport amount
`B - R - fee_sol·1e9` (decimal conversion appears only in log display) and
that amount is strictly positive; whenever the configured fee is a whole
number `fz` of lamports, the amount is the integer `B - R - fz`. -/
theorem sweep_amount_lamports_integral (feeSol : ℚ) (timeoutSeconds : Nat)
    (o : SweepOracle) (B R : Nat) (fz : ℤ)
    (hB : o.getBalance = .ok B) (hR : o.getRentMin = .ok R)
    (hfee : feeSol * lamportsPerSol = (fz : ℚ)) :
    ∀ intent ∈ (sweepWallet feeSol timeoutSeconds o).intents,
      intent.lamports = (B : ℚ) - (R : ℚ) - feeSol * lamportsPerSol
      ∧ 0 < intent.lamports
      ∧ intent.lamports = (((B : ℤ) - (R : ℤ) - fz : ℤ) : ℚ) := by
  intro intent hmem
  by_cases hle : (B : ℚ) - (R : ℚ) - feeSol * lamportsPerSol ≤ 0
  · simp [sweepWallet, hB, hR, hle] at hmem
  · have hintents : (sweepWallet feeSol timeoutSeconds o).intents =
        [TransferIntent.mk o.senderPubkey o.recipientPubkey
          ((B : ℚ) - (R : ℚ) - feeSol * lamportsPerSol)] := by
      rcases hs : o.sendTx (TransferIntent.mk o.senderPubkey o.recipientPubkey
          ((B : ℚ) - (R : ℚ) - feeSol * lamportsPerSol)) with e | sig
      · simp [sweepWallet, hB, hR, hle, hs]
      · rcases hcf : confirmTransactionWithTimeout o.confirm timeoutSeconds
          with ⟨out, tb⟩
        cases out <;> simp [sweepWallet, hB, hR, hle, hs, hcf]
    rw [hintents] at hmem
    simp only [List.mem_singleton] at hmem
    subst hmem
    refine ⟨rfl, not_le.mp hle, ?_⟩
    show (B : ℚ) - (R : ℚ) - feeSol * lamportsPerSol = (((B : ℤ) - (R : ℤ) - fz : ℤ) : ℚ)
    rw [hfee]
    push_cast
    ring

/-- Witness for the amended C10: fee 0.001 SOL is the whole fee 1000000
lamports; on a 2 SOL balance with reserve 890880 the single intent carries
the positive integer amount 1998109120. -/
theorem sweep_amount_lamports_integral_witness :
    (1 / 1000 : ℚ) * lamportsPerSol = ((1000000 : ℤ) : ℚ)
  ∧ (sweepWallet (1 / 1000) 60 sweepOracleRich).intents =
      [TransferIntent.mk "senderPk" "recipientPk" (1998109120 : ℚ)]
  ∧ (0 : ℚ) < 1998109120
  ∧ (1998109120 : ℚ) = (((2000000000 : ℤ) - 890880 - 1000000 : ℤ) : ℚ) := by
  have hfee : (1 / 1000 : ℚ) * lamportsPerSol = ((1000000 : ℤ) : ℚ) := by
    norm_num [lamportsPerSol]
  have hintents : (sweepWallet (1 / 1000) 60 sweepOracleRich).intents =
      [TransferIntent.mk "senderPk" "recipientPk" (1998109120 : ℚ)] := by
    norm_num [sweepWallet, sweepOracleRich, confirmTransactionWithTimeout, lamportsPerSol]
  have h := sweep_amount_lamports_integral (1 / 1000) 60 sweepOracleRich
    2000000000 890880 1000000 rfl rfl hfee
    (TransferIntent.mk "senderPk" "recipientPk" (1998109120 : ℚ))
    (by rw [hintents]; exact List.mem_singleton_self _)
  exact ⟨hfee, hintents, h.2.1, by norm_num⟩

end SolanaAIO
